import Mathlib

/-!
Verification of the LED pattern runner `into.py` (Lights_PI_Show).

Shallow embedding: Python integers become `Int` (Python's `& 255` on any
integer equals `% 256` with Lean's `Int.emod`, and Python `//` and `%` with a
positive divisor agree with `Int.ediv` / `Int.emod`); packed 24-bit colors are
`Int`s built by `color`; the mutable `AppState` dataclass becomes an immutable
structure with explicit state passing; fallible sensor reads become `Option`.
Frame delays are modelled as exact rationals (`ℚ`) carrying the source's
decimal literals; the analog scaling `int((bounded / analog_max) * max_brightness)`
is modelled as exact integer floor division of the same expression.
-/

namespace LightsPI

/-- `Color(r, g, b)` from `into.py`: `((r & 0xFF) << 16) | ((g & 0xFF) << 8) | (b & 0xFF)`.
The three masked fields occupy disjoint bit ranges, so the bitwise-or is a sum;
Python's `& 0xFF` on an arbitrary integer is `Int.emod _ 256`. -/
def color (r g b : Int) : Int :=
  (r % 256) * 65536 + (g % 256) * 256 + (b % 256)

/-- `LED_COUNT` from `into.py` (the reference strip length). -/
def LED_COUNT : Nat := 120

/-- `clamp_brightness` from `into.py`: `max(0, min(255, value))`. -/
def clamp_brightness (value : Int) : Int := max 0 (min 255 value)

/-- `wheel(position)` from `into.py`, translated branch for branch. -/
def wheel (position : Int) : Int :=
  let pos := 255 - position
  if pos < 85 then color (255 - pos * 3) 0 (pos * 3)
  else if pos < 170 then
    let p := pos - 85
    color 0 (p * 3) (255 - p * 3)
  else
    let p := pos - 170
    color (p * 3) (255 - p * 3) 0

/-- The raw channel triple `(r, g, b)` that `wheel` hands to `Color`, before
`Color`'s `& 0xFF` masking — used to state that no channel overflows [0,255]. -/
def wheelChannels (position : Int) : Int × Int × Int :=
  let pos := 255 - position
  if pos < 85 then (255 - pos * 3, 0, pos * 3)
  else if pos < 170 then
    let p := pos - 85
    (0, p * 3, 255 - p * 3)
  else
    let p := pos - 170
    (p * 3, 255 - p * 3, 0)

/-- How every call site in `into.py` invokes `wheel`: the argument is masked
with `& 255` first (`wheel((state.rainbow_offset + state.chase_position * 8) & 255)`). -/
def wheelMasked (x : Int) : Int := wheel (x % 256)

/-- The `AppState` dataclass from `into.py`. -/
structure AppState where
  pattern : String
  speed : String
  chase_color : String
  random_palette : String
  bounce_color : String
  max_brightness : Int := 255
  brightness : Int := 255
  input_mode : String := "off"
  input_pin : Int := 23
  analog_path : String := "/sys/bus/iio/devices/iio:device0/in_voltage0_raw"
  analog_max : Int := 4095
  emergency_only : Bool := false
  emergency_step : Int := 0
  emergency_color_index : Int := 0
  chase_position : Int := 0
  bounce_position : Int := 0
  bounce_direction : Int := 1
  rainbow_offset : Int := 0
deriving Repr, DecidableEq

/-- The `RunOptions` dataclass from `into.py`. -/
structure RunOptions where
  frames : Int := 0
  duration_seconds : ℚ := 0
  start_delay_seconds : ℚ := 0
deriving Repr, DecidableEq

/-- `available_patterns` from `into.py`, as the dict's key list in insertion
order: `{"4"}` in emergency-only mode, else all of `PATTERN_NAMES` minus `"4"`. -/
def available_patterns (emergency_only : Bool) : List String :=
  if emergency_only then ["4"] else ["1", "2", "3"]

/-- `normalize_pattern_for_mode` from `into.py`. -/
def normalize_pattern_for_mode (state : AppState) : AppState :=
  if state.emergency_only then { state with pattern := "4" }
  else if state.pattern = "4" then { state with pattern := "1" }
  else state

/-- `cycle_choice` from `into.py`: `keys[(keys.index(current) + 1) % len(keys)]`.
`List.indexOf` agrees with Python's `list.index` whenever `current ∈ keys`,
which holds at every reachable call site (Python would raise otherwise). -/
def cycle_choice (current : String) (keys : List String) : String :=
  (keys.getD ((keys.indexOf current + 1) % keys.length) "")

/-- The bounce position/direction update at the tail of `pattern_step_bounce`
(`into.py` lines 425–429), with the strip length `n` as configuration
(`LED_COUNT = 120` in the reference): flip direction to −1 when the position
equals `n−1`, else to +1 when it equals 0, then add the direction. -/
def bounce_advance (n : Nat) (pos dir : Int) : Int × Int :=
  let dir' := if pos = (n : Int) - 1 then -1 else if pos = 0 then 1 else dir
  (pos + dir', dir')

/-- Iterated `bounce_advance` on a position/direction pair. -/
def bounce_iter (n : Nat) (k : Nat) (pd : Int × Int) : Int × Int :=
  (fun q => bounce_advance n q.1 q.2)^[k] pd

/-- `EMERGENCY_DELAY_SECONDS` from `into.py` (exact decimal as a rational). -/
def EMERGENCY_DELAY_SECONDS : ℚ := 0.12

/-- `SPEED_MAP` from `into.py`: delay table keyed by (pattern, speed), with the
source's decimal literals carried exactly as rationals. -/
def SPEED_MAP : List (String × List (String × ℚ)) :=
  [("1", [("1", 0.08), ("2", 0.03), ("3", 0.01)]),
   ("2", [("1", 0.30), ("2", 0.12), ("3", 0.05)]),
   ("3", [("1", 0.06), ("2", 0.02), ("3", 0.008)])]

/-- Association-list lookup standing in for Python dict subscription; the
source only subscripts with keys that are present (a missing key would raise). -/
def dictGet (entries : List (String × ℚ)) (key : String) : ℚ :=
  ((entries.find? (fun e => e.1 = key)).map (fun e => e.2)).getD 0

/-- `get_delay` from `into.py`: fixed emergency delay for pattern `"4"`, else
`SPEED_MAP[state.pattern][state.speed]`. -/
def get_delay (state : AppState) : ℚ :=
  if state.pattern = "4" then EMERGENCY_DELAY_SECONDS
  else dictGet (((SPEED_MAP.find? (fun e => e.1 = state.pattern)).map
    (fun e => e.2)).getD []) state.speed

/-- `EMERGENCY_COLORS` from `into.py`. -/
def EMERGENCY_COLORS : List (String × Int) :=
  [("Red", color 255 0 0), ("Blue", color 0 0 255), ("White", color 255 255 255)]

/-- `EMERGENCY_SOS_STEPS` from `into.py`: the literal 0/1 SOS waveform. -/
def EMERGENCY_SOS_STEPS : List Int :=
  [1, 0, 1, 0, 1, 0,
   1, 1, 1, 0, 1, 1, 1, 0, 1, 1, 1, 0,
   1, 0, 1, 0, 1, 0,
   0, 0, 0, 0]

/-- `CHASE_COLORS` from `into.py` (label and packed color; `"4"` is the
Rainbow sentinel whose stored value 0 is never used as a color). -/
def CHASE_COLORS : List (String × String × Int) :=
  [("1", ("Orange", color 255 140 0)), ("2", ("Green", color 0 255 0)),
   ("3", ("Blue", color 0 0 255)), ("4", ("Rainbow", 0))]

/-- `BOUNCE_COLORS` from `into.py`. -/
def BOUNCE_COLORS : List (String × String × Int) :=
  [("1", ("Blue", color 0 0 255)), ("2", ("Purple", color 180 0 255)),
   ("3", ("White", color 255 255 255)), ("4", ("Rainbow", 0))]

/-- Packed color stored for a chase/bounce color key (Python dict subscription
`TABLE[key][1]`; keys are always present at the source's call sites). -/
def colorTableGet (table : List (String × String × Int)) (key : String) : Int :=
  ((table.find? (fun e => e.1 = key)).map (fun e => e.2.2)).getD 0

/-- A frame buffer: one packed color per pixel. -/
def Buffer : Type := List Int

/-- `VirtualStrip.setPixelColor` from `into.py`: ignored when the index is
outside `[0, count)`. -/
def setPixelColor (buf : List Int) (n : Int) (c : Int) : List Int :=
  if 0 ≤ n ∧ n < (buf.length : Int) then buf.set n.toNat c else buf

/-- `clear_strip(show_now=False)` from `into.py`: every pixel of the strip is
set to `Color(0, 0, 0) = 0`. -/
def clearBuffer (n : Nat) : List Int := List.replicate n 0

/-- `pattern_step_chase` from `into.py` with the strip length `n` as
configuration (`LED_COUNT` in the source): clear, pick the active color
(advancing the rainbow offset only for the Rainbow option `"4"`), set the
pixel at `chase_position`, flush (the returned buffer is the flushed frame),
then advance `chase_position = (chase_position + 1) % n`. -/
def pattern_step_chase (n : Nat) (state : AppState) : AppState × List Int :=
  let cleared := clearBuffer n
  let withColor : AppState × Int :=
    if state.chase_color = "4" then
      ({ state with rainbow_offset := (state.rainbow_offset + 3) % 256 },
       wheel ((state.rainbow_offset + state.chase_position * 8) % 256))
    else (state, colorTableGet CHASE_COLORS state.chase_color)
  let buf := setPixelColor cleared state.chase_position withColor.2
  ({ withColor.1 with chase_position := (state.chase_position + 1) % (n : Int) }, buf)

/-- `pattern_step_bounce` from `into.py` with the strip length `n` as
configuration: clear, pick the active color (bounce table / rainbow), set the
pixel at `bounce_position`, flush, then reflect and move via the logic of
`bounce_advance`. -/
def pattern_step_bounce (n : Nat) (state : AppState) : AppState × List Int :=
  let cleared := clearBuffer n
  let withColor : AppState × Int :=
    if state.bounce_color = "4" then
      ({ state with rainbow_offset := (state.rainbow_offset + 3) % 256 },
       wheel ((state.rainbow_offset + state.bounce_position * 8) % 256))
    else (state, colorTableGet BOUNCE_COLORS state.bounce_color)
  let buf := setPixelColor cleared state.bounce_position withColor.2
  let moved := bounce_advance n state.bounce_position state.bounce_direction
  ({ withColor.1 with bounce_position := moved.1, bounce_direction := moved.2 }, buf)

/-- `pattern_step_emergency` from `into.py` with the strip length `n` as
configuration: light the whole strip with the current emergency color when the
waveform entry is positive, else blank it; then advance the step index,
wrapping to 0 and cycling the color index modulo 3 after the last entry.
List indexing uses `getD`; the source's indices always lie in range. -/
def pattern_step_emergency (n : Nat) (state : AppState) : AppState × List Int :=
  let step_on := EMERGENCY_SOS_STEPS.getD state.emergency_step.toNat 0 > 0
  let c := ((EMERGENCY_COLORS.getD state.emergency_color_index.toNat ("", 0))).2
  let buf := List.replicate n (if step_on then c else 0)
  let step' := state.emergency_step + 1
  if step' ≥ (EMERGENCY_SOS_STEPS.length : Int) then
    ({ state with
        emergency_step := 0
        emergency_color_index :=
          (state.emergency_color_index + 1) % (EMERGENCY_COLORS.length : Int) }, buf)
  else ({ state with emergency_step := step' }, buf)

/-- The emergency step/color counter update performed by
`pattern_step_emergency`, on the `(emergency_step, emergency_color_index)`
pair alone. -/
def emergency_advance (sc : Int × Int) : Int × Int :=
  let step' := sc.1 + 1
  if step' ≥ (EMERGENCY_SOS_STEPS.length : Int) then
    (0, (sc.2 + 1) % (EMERGENCY_COLORS.length : Int))
  else (step', sc.2)

/-- `SPEED_LABELS` key list from `into.py` (dict insertion order). -/
def SPEED_LABEL_KEYS : List String := ["1", "2", "3"]

/-- `CHASE_COLORS` key list (dict insertion order). -/
def CHASE_COLOR_KEYS : List String := ["1", "2", "3", "4"]

/-- `RANDOM_PALETTES` key list (dict insertion order). -/
def RANDOM_PALETTE_KEYS : List String := ["1", "2", "3"]

/-- `BOUNCE_COLORS` key list (dict insertion order). -/
def BOUNCE_COLOR_KEYS : List String := ["1", "2", "3", "4"]

/-- `handle_key` from `into.py`, as a pure transition on the state plus the
returned continue flag. Printing branches (`h`, Ctrl+O and the status lines)
touch no state; `set_strip_brightness` affects only the sink, modelled
separately. `"\x0f"` is the Ctrl+O control character. -/
def handle_key (state : AppState) (key : String) : AppState × Bool :=
  let allowed := available_patterns state.emergency_only
  if key ∈ allowed then ({ state with pattern := key }, true)
  else if key = "p" then
    ({ state with pattern := cycle_choice state.pattern allowed }, true)
  else if key = "s" then
    ({ state with speed := cycle_choice state.speed SPEED_LABEL_KEYS }, true)
  else if key = "c" then
    (if state.pattern = "1" then
      { state with chase_color := cycle_choice state.chase_color CHASE_COLOR_KEYS }
     else if state.pattern = "2" then
      { state with random_palette := cycle_choice state.random_palette RANDOM_PALETTE_KEYS }
     else if state.pattern = "3" then
      { state with bounce_color := cycle_choice state.bounce_color BOUNCE_COLOR_KEYS }
     else state, true)
  else if key = "+" then
    ({ state with brightness := clamp_brightness (state.brightness + 16) }, true)
  else if key = "-" then
    ({ state with brightness := clamp_brightness (state.brightness - 16) }, true)
  else if key = "h" then (state, true)
  else if key = "\x0f" then (state, true)
  else if key = "q" then (state, false)
  else (state, true)

/-- Folding a sequence of keystrokes through `handle_key`, keeping the state. -/
def handle_keys (state : AppState) (keys : List String) : AppState :=
  keys.foldl (fun s k => (handle_key s k).1) state

/-- Truncation toward zero: Python's `int()` applied to a (float) value. -/
def truncQ (q : ℚ) : ℤ := if 0 ≤ q then ⌊q⌋ else -⌊-q⌋

/-- Round a rational to the nearest integer, ties to the even integer — the
integer-grid core of IEEE-754 round-to-nearest-even. -/
def roundHalfEven (r : ℚ) : ℤ :=
  if r - ⌊r⌋ < 1/2 then ⌊r⌋
  else if 1/2 < r - ⌊r⌋ then ⌊r⌋ + 1
  else if Even ⌊r⌋ then ⌊r⌋ else ⌊r⌋ + 1

/-- IEEE-754 binary64 round-to-nearest-even: round to the dyadic grid of
spacing `2^e` with `e = max (⌊log₂ |q|⌋ - 52) (-1074)` (53-bit significand,
subnormal spacing floor at `2^-1074`). Exact on every representable value.
Overflow to infinity (`|q| ≥ 2^1024`) is not modelled; the analog pipeline
below stays far inside the finite range under the stated hypotheses. -/
def round64 (q : ℚ) : ℚ :=
  if q = 0 then 0
  else
    let e := max (Int.log 2 |q| - 52) (-1074)
    (roundHalfEven (q / 2 ^ e) : ℚ) * 2 ^ e

/-- `apply_pi_input_response` from `into.py`. The opaque sensor reads
`read_digital_input` / `read_analog_input` are the `digital` / `analog`
`Option` arguments (`none` = no sample). The second component is the sink
brightness (`set_strip_brightness` clamps before handing to the sink). The
Python float expression `int((bounded / analog_max) * max_brightness)` is
modelled faithfully to binary64 arithmetic: the true-division quotient and
the product are each rounded with `round64` (CPython's `int / int` and
float `*` are correctly rounded), then truncated toward zero by `int()`. -/
def apply_pi_input_response (state : AppState) (sinkBrightness : Int)
    (digital analog : Option Int) : AppState × Int :=
  if state.input_mode = "off" then (state, sinkBrightness)
  else if state.input_mode = "digital" then
    match digital with
    | none => (state, sinkBrightness)
    | some d =>
      let b := if d > 0 then state.max_brightness else 0
      ({ state with brightness := b }, clamp_brightness b)
  else
    match analog with
    | none => (state, sinkBrightness)
    | some a =>
      let analogMax := max 1 state.analog_max
      let bounded := max 0 (min analogMax a)
      let scaled := truncQ (round64 (round64 ((bounded : ℚ) / (analogMax : ℚ)) *
        (state.max_brightness : ℚ)))
      let b := clamp_brightness scaled
      ({ state with brightness := b }, clamp_brightness b)

/-- `color_to_ascii` from `into.py`: `.` for the packed color 0, `W` when all
three channels exceed 180, else the letter of the maximal channel with ties
broken R over G over B. Channel extraction `(color >> k) & 0xFF` is
`/ 2^k % 256`; stored pixels are nonnegative packed colors, where Python's
shifts agree with `Int.ediv`. -/
def color_to_ascii (c : Int) : Char :=
  if c = 0 then '.'
  else
    let red := c / 65536 % 256
    let green := c / 256 % 256
    let blue := c % 256
    if red > 180 ∧ green > 180 ∧ blue > 180 then 'W'
    else if red ≥ green ∧ red ≥ blue then 'R'
    else if green ≥ red ∧ green ≥ blue then 'G'
    else 'B'

/-- Python's `f"{n:04d}"` for a nonnegative frame counter: the decimal digits
left-padded with zeros to at least four characters. -/
def pad4 (n : Nat) : String :=
  let s := toString n
  String.mk (List.replicate (4 - s.length) '0') ++ s

/-- The line printed by `VirtualStrip.show` when stdout is not a terminal:
the counter is incremented first, then
`f"Frame {self.frame:04d} | {ascii_pixels}"` is emitted. Returns the new
counter and the emitted line. -/
def virtualStripShow (frame : Nat) (pixels : List Int) : Nat × String :=
  let frame' := frame + 1
  (frame', "Frame " ++ pad4 frame' ++ " | " ++ String.mk (pixels.map color_to_ascii))

/-- A JSON-like value for the persisted-settings record consumed by
`state_options_from_headless_data` (`jnull` also stands for any other
non-coercible payload such as a list). -/
inductive JValue where
  | jnull : JValue
  | jbool : Bool → JValue
  | jint : Int → JValue
  | jstr : String → JValue
  | jdict : List (String × JValue) → JValue

/-- Python `data.get(key)`: `none` when the key is absent. -/
def jsonGet (entries : List (String × JValue)) (key : String) : Option JValue :=
  (entries.find? (fun e => e.1 = key)).map (fun e => e.2)

/-- `as_str` from `into.py`: keep strings, anything else falls to the default
(`data.get` returning `None` included). -/
def as_str (v : Option JValue) (default : String) : String :=
  match v with
  | some (.jstr s) => s
  | _ => default

/-- `as_int` from `into.py`: `int(value)` succeeds on ints and bools
(`int(True) = 1`) and on integer-shaped strings (modelled by `String.toInt?`);
`None`, dicts and other strings raise and fall to the default. -/
def as_int (v : Option JValue) (default : Int) : Int :=
  match v with
  | some (.jint n) => n
  | some (.jbool b) => if b then 1 else 0
  | some (.jstr s) => (s.toInt?).getD default
  | _ => default

/-- `as_float` from `into.py`, valued in exact rationals: `float(value)`
succeeds on ints and bools, and on numeric strings (integer-shaped strings
modelled by `String.toInt?`); everything else falls to the default. -/
def as_float (v : Option JValue) (default : ℚ) : ℚ :=
  match v with
  | some (.jint n) => (n : ℚ)
  | some (.jbool b) => if b then 1 else 0
  | some (.jstr s) => ((s.toInt?).map (fun n => (n : ℚ))).getD default
  | _ => default

/-- `as_bool` from `into.py`: booleans pass through; strings are stripped,
lowercased and matched against the truthy/falsy word sets; everything else
falls to the default. -/
def as_bool (v : Option JValue) (default : Bool) : Bool :=
  match v with
  | some (.jbool b) => b
  | some (.jstr s) =>
    let normalized := s.trim.toLower
    if normalized ∈ ["1", "true", "yes", "y", "on"] then true
    else if normalized ∈ ["0", "false", "no", "n", "off"] then false
    else default
  | _ => default

/-- `PATTERN_NAMES` key list from `into.py`. -/
def PATTERN_KEYS : List String := ["1", "2", "3", "4"]

/-- `state_options_from_headless_data` from `into.py`, translated field for
field: permissive coercions with documented defaults, the enumeration checks,
and the final `normalize_pattern_for_mode`. The source runs the enumeration
checks as post-assignments on the freshly constructed record; since each
check reads and rewrites only its own field of that record, they are folded
here into the corresponding field initializers (same record, field for
field). -/
def state_options_from_headless_data (data : List (String × JValue)) :
    AppState × RunOptions × Bool :=
  let input_data :=
    match jsonGet data "input" with
    | some (.jdict entries) => entries
    | _ => []
  let run_data :=
    match jsonGet data "run" with
    | some (.jdict entries) => entries
    | _ => []
  let pattern_raw := as_str (jsonGet data "pattern") "1"
  let speed_raw := as_str (jsonGet data "speed") "2"
  let chase_raw := as_str (jsonGet data "chase_color") "1"
  let palette_raw := as_str (jsonGet data "random_palette") "1"
  let bounce_raw := as_str (jsonGet data "bounce_color") "1"
  let mode_raw := as_str (jsonGet input_data "mode") "off"
  let state : AppState :=
    { pattern := if pattern_raw ∉ PATTERN_KEYS then "1" else pattern_raw
      speed := if speed_raw ∉ SPEED_LABEL_KEYS then "2" else speed_raw
      chase_color := if chase_raw ∉ CHASE_COLOR_KEYS then "1" else chase_raw
      random_palette :=
        if palette_raw ∉ RANDOM_PALETTE_KEYS then "1" else palette_raw
      bounce_color := if bounce_raw ∉ BOUNCE_COLOR_KEYS then "1" else bounce_raw
      brightness := clamp_brightness (as_int (jsonGet data "brightness") 255)
      max_brightness := clamp_brightness (as_int (jsonGet data "max_brightness") 255)
      input_mode := if mode_raw ∉ ["off", "digital", "analog"] then "off" else mode_raw
      input_pin := as_int (jsonGet input_data "pin") 23
      analog_path := as_str (jsonGet input_data "analog_path")
        "/sys/bus/iio/devices/iio:device0/in_voltage0_raw"
      analog_max := max 1 (as_int (jsonGet input_data "analog_max") 4095)
      emergency_only := as_bool (jsonGet data "emergency_only") false }
  let options : RunOptions :=
    { frames := max 0 (as_int (jsonGet run_data "frames") 0)
      duration_seconds := max 0 (as_float (jsonGet run_data "duration_seconds") 0)
      start_delay_seconds := max 0 (as_float (jsonGet run_data "start_delay_seconds") 0) }
  let test_mode := as_bool (jsonGet data "test") false
  (normalize_pattern_for_mode state, options, test_mode)

/-- The parsed command-line arguments consumed by `state_from_args` and
`apply_cli_overrides` (argparse guarantees the enumerated choices; `none` =
flag absent). Durations are exact rationals. -/
structure Args where
  pattern : Option String := none
  speed : Option String := none
  chase_color : Option String := none
  random_palette : Option String := none
  bounce_color : Option String := none
  brightness : Option Int := none
  max_brightness : Option Int := none
  pi_input_mode : Option String := none
  pi_input_pin : Option Int := none
  analog_path : Option String := none
  analog_max : Option Int := none
  frames : Option Int := none
  duration_seconds : Option ℚ := none
  start_delay_seconds : Option ℚ := none
  emergency_only : Bool := false
deriving Repr, DecidableEq

/-- `state_from_args` from `into.py`: defaults for absent flags, brightness
clamped then capped by `max_brightness`, and the final normalization. -/
def state_from_args (args : Args) : AppState × RunOptions :=
  let state : AppState :=
    { pattern := args.pattern.getD "1"
      speed := args.speed.getD "2"
      chase_color := args.chase_color.getD "1"
      random_palette := args.random_palette.getD "1"
      bounce_color := args.bounce_color.getD "1"
      brightness := clamp_brightness (args.brightness.getD 255)
      max_brightness := clamp_brightness (args.max_brightness.getD 255)
      input_mode := args.pi_input_mode.getD "off"
      input_pin := args.pi_input_pin.getD 23
      analog_path := args.analog_path.getD
        "/sys/bus/iio/devices/iio:device0/in_voltage0_raw"
      analog_max := max 1 (args.analog_max.getD 4095)
      emergency_only := args.emergency_only }
  let state := { state with brightness := min state.brightness state.max_brightness }
  let options : RunOptions :=
    { frames := max 0 (args.frames.getD 0)
      duration_seconds := max 0 (args.duration_seconds.getD 0)
      start_delay_seconds := max 0 (args.start_delay_seconds.getD 0) }
  (normalize_pattern_for_mode state, options)

/-- `apply_cli_overrides` from `into.py`: each present flag overwrites the
corresponding field (brightness fields clamped), then brightness is capped by
`max_brightness` and the pattern re-normalized. The source's sequence of
`if flag is not None: state.field = ...` statements each touches a distinct
field, so they are folded into one record update, field for field (`--flag`
absent = keep the old value). -/
def apply_cli_overrides (state : AppState) (options : RunOptions) (args : Args) :
    AppState × RunOptions :=
  let mb :=
    match args.max_brightness with
    | some v => clamp_brightness v
    | none => state.max_brightness
  let b :=
    match args.brightness with
    | some v => clamp_brightness v
    | none => state.brightness
  let state' : AppState :=
    { state with
        pattern := args.pattern.getD state.pattern
        speed := args.speed.getD state.speed
        chase_color := args.chase_color.getD state.chase_color
        random_palette := args.random_palette.getD state.random_palette
        bounce_color := args.bounce_color.getD state.bounce_color
        max_brightness := mb
        brightness := min b mb
        input_mode := args.pi_input_mode.getD state.input_mode
        input_pin := args.pi_input_pin.getD state.input_pin
        analog_path := args.analog_path.getD state.analog_path
        analog_max :=
          match args.analog_max with
          | some v => max 1 v
          | none => state.analog_max
        emergency_only := args.emergency_only || state.emergency_only }
  let options' : RunOptions :=
    { frames :=
        match args.frames with
        | some v => max 0 v
        | none => options.frames
      duration_seconds :=
        match args.duration_seconds with
        | some v => max 0 v
        | none => options.duration_seconds
      start_delay_seconds :=
        match args.start_delay_seconds with
        | some v => max 0 v
        | none => options.start_delay_seconds }
  (normalize_pattern_for_mode state', options')

/-! ### Theorems -/

/-- One `bounce_advance` step from a valid state of a strip of length at least
two stays valid. -/
lemma bounce_advance_valid (n : Nat) (hn : 2 ≤ n) (p d : Int)
    (hp : 0 ≤ p ∧ p < n) (hd : d = 1 ∨ d = -1) :
    (0 ≤ (bounce_advance n p d).1 ∧ (bounce_advance n p d).1 < n) ∧
      ((bounce_advance n p d).2 = 1 ∨ (bounce_advance n p d).2 = -1) := by
  simp only [bounce_advance]
  split_ifs <;> rcases hd with hd | hd <;> subst hd <;>
    refine ⟨⟨?_, ?_⟩, ?_⟩ <;> omega

/-- Any number of `bounce_advance` steps from a valid state of a strip of
length at least two stays valid. -/
lemma bounce_iter_valid (n : Nat) (hn : 2 ≤ n) (p d : Int)
    (hp : 0 ≤ p ∧ p < n) (hd : d = 1 ∨ d = -1) (k : Nat) :
    (0 ≤ (bounce_iter n k (p, d)).1 ∧ (bounce_iter n k (p, d)).1 < n) ∧
      ((bounce_iter n k (p, d)).2 = 1 ∨ (bounce_iter n k (p, d)).2 = -1) := by
  induction k with
  | zero => exact ⟨hp, hd⟩
  | succ k ih =>
    have hstep := bounce_advance_valid n hn (bounce_iter n k (p, d)).1
      (bounce_iter n k (p, d)).2 ih.1 ih.2
    have : bounce_iter n (k + 1) (p, d) =
        bounce_advance n (bounce_iter n k (p, d)).1 (bounce_iter n k (p, d)).2 := by
      simp only [bounce_iter, Function.iterate_succ_apply']
    rw [this]
    exact hstep

/-- C2 — counterexample. The claim quantifies over every strip length
`N ≥ 1`, but at `N = 1` (a valid starting state: position `0 ∈ [0, 1)`,
direction `+1`) a single `pattern_step_bounce` drives the position to `-1`,
outside `[0, N)`: position `0` equals `N - 1`, so the direction flips to `-1`
and the move leaves the strip. -/
theorem bounce_invariant_counterexample :
    ¬ (0 ≤ (bounce_iter 1 1 (0, 1)).1 ∧ (bounce_iter 1 1 (0, 1)).1 < 1) := by
  decide

/-- C2 — amended: for every strip length `N ≥ 2`, from any starting state with
`bounce_position ∈ [0, N)` and `bounce_direction ∈ {+1, -1}`, any number of
`pattern_step_bounce` invocations keeps `bounce_position` within `[0, N)` and
`bounce_direction` in `{+1, -1}`; at each step the direction is set to `-1`
when the pre-step position is `N - 1`, set to `+1` when it is `0`, and left
unchanged at every other position (so a change of direction happens only at
the two endpoints), and the move adds the flipped direction — flip before
move, within the same step. -/
theorem bounce_invariant_amended (n : Nat) (hn : 2 ≤ n) (p d : Int)
    (hp : 0 ≤ p ∧ p < n) (hd : d = 1 ∨ d = -1) (k : Nat) :
    (0 ≤ (bounce_iter n k (p, d)).1 ∧ (bounce_iter n k (p, d)).1 < n) ∧
      ((bounce_iter n k (p, d)).2 = 1 ∨ (bounce_iter n k (p, d)).2 = -1) ∧
      (∀ q d' : Int,
        ((q = (n : Int) - 1 → (bounce_advance n q d').2 = -1) ∧
         (q ≠ (n : Int) - 1 → q = 0 → (bounce_advance n q d').2 = 1) ∧
         (q ≠ (n : Int) - 1 → q ≠ 0 → (bounce_advance n q d').2 = d') ∧
         ((bounce_advance n q d').2 ≠ d' → q = (n : Int) - 1 ∨ q = 0) ∧
         (bounce_advance n q d').1 = q + (bounce_advance n q d').2)) := by
  refine ⟨(bounce_iter_valid n hn p d hp hd k).1,
    (bounce_iter_valid n hn p d hp hd k).2, ?_⟩
  intro q d'
  by_cases h1 : q = (n : Int) - 1
  · have e : bounce_advance n q d' = (q + -1, -1) := by
      simp [bounce_advance, h1]
    rw [e]
    exact ⟨fun _ => rfl, fun hq _ => absurd h1 hq, fun hq _ => absurd h1 hq,
      fun _ => Or.inl h1, rfl⟩
  · by_cases h0 : q = 0
    · have e : bounce_advance n q d' = (q + 1, 1) := by
        simp only [bounce_advance, if_neg h1, if_pos h0]
      rw [e]
      exact ⟨fun hh => absurd hh h1, fun _ _ => rfl, fun _ hq => absurd h0 hq,
        fun _ => Or.inr h0, rfl⟩
    · have e : bounce_advance n q d' = (q + d', d') := by
        simp [bounce_advance, h1, h0]
      rw [e]
      exact ⟨fun hh => absurd hh h1, fun _ hh => absurd hh h0, fun _ _ => rfl,
        fun hd' => absurd rfl hd', rfl⟩

/-- C2 — witness: the amended theorem applied at the spec's own end-to-end
scenario (strip length 3, start position 0, direction +1, five steps). -/
theorem bounce_invariant_witness :
    0 ≤ (bounce_iter 3 5 (0, 1)).1 ∧ (bounce_iter 3 5 (0, 1)).1 < 3 := by
  have h := bounce_invariant_amended 3 (by norm_num) 0 1
    ⟨le_refl 0, by norm_num⟩ (Or.inl rfl) 5
  exact h.1

/-- C10 — counterexample. `wheel` itself is not a pure function of its
argument mod 256: `wheel 256` builds `Color(258, 0, -3)` (masked to channels
`(2, 0, 253)`) while `wheel (256 % 256) = wheel 0 = Color(255, 0, 0)`. -/
theorem wheel_mod_counterexample : wheel 256 ≠ wheel (256 % 256) := by decide

/-- C10 — amended: every call site of `wheel` masks the argument with `& 255`
first, and that composite (`wheelMasked`) is a pure function of its argument
mod 256; `wheel` agrees with `wheel (x % 256)` on the masked domain
`x ∈ [0, 255]`, and there each of the three RGB channels it hands to `Color`
lies within `[0, 255]` — no channel overflow. -/
theorem wheel_mod_amended (x : Int) (hx : 0 ≤ x ∧ x ≤ 255) :
    (∀ y : Int, wheelMasked y = wheelMasked (y % 256)) ∧
      wheel x = wheel (x % 256) ∧
      (0 ≤ (wheelChannels x).1 ∧ (wheelChannels x).1 ≤ 255) ∧
      (0 ≤ (wheelChannels x).2.1 ∧ (wheelChannels x).2.1 ≤ 255) ∧
      (0 ≤ (wheelChannels x).2.2 ∧ (wheelChannels x).2.2 ≤ 255) ∧
      wheel x = color (wheelChannels x).1 (wheelChannels x).2.1 (wheelChannels x).2.2 := by
  have hmod : x % 256 = x := Int.emod_eq_of_lt hx.1 (by omega)
  refine ⟨?_, by rw [hmod], ?_, ?_, ?_, ?_⟩
  · intro y
    simp only [wheelMasked, Int.emod_emod_of_dvd y (dvd_refl 256)]
  · simp only [wheelChannels]; split_ifs <;> dsimp only <;> constructor <;> omega
  · simp only [wheelChannels]; split_ifs <;> dsimp only <;> constructor <;> omega
  · simp only [wheelChannels]; split_ifs <;> dsimp only <;> constructor <;> omega
  · simp only [wheel, wheelChannels]; split_ifs <;> rfl

/-- C10 — witness: the amended theorem applied at the concrete input 10. -/
theorem wheel_mod_witness :
    wheel 10 = wheel (10 % 256) ∧ 0 ≤ (wheelChannels 10).1 ∧ (wheelChannels 10).1 ≤ 255 := by
  have h := wheel_mod_amended 10 ⟨by norm_num, by norm_num⟩
  exact ⟨h.2.1, h.2.2.1⟩

set_option maxRecDepth 8000 in
/-- C5 — confirmed: the SOS waveform list has length exactly 28; from
`emergency_step = 0`, 28 invocations of the `pattern_step_emergency` counter
update return the step index to 0 and advance the color index by exactly one
modulo 3, and 84 invocations return the color index to its original value. -/
theorem emergency_waveform_spec (ci : Int) (hci : 0 ≤ ci ∧ ci < 3) :
    EMERGENCY_SOS_STEPS.length = 28 ∧
      emergency_advance^[28] (0, ci) = (0, (ci + 1) % 3) ∧
      emergency_advance^[84] (0, ci) = (0, ci) := by
  have h3 : ci = 0 ∨ ci = 1 ∨ ci = 2 := by omega
  rcases h3 with h | h | h <;> subst h <;> exact ⟨by decide, by decide, by decide⟩

/-- C5 — witness: the theorem applied at color index 1. -/
theorem emergency_waveform_witness :
    emergency_advance^[28] (0, 1) = (0, 2) ∧ emergency_advance^[84] (0, 1) = (0, 1) := by
  have h := emergency_waveform_spec 1 ⟨by norm_num, by norm_num⟩
  exact ⟨h.2.1, h.2.2⟩

/-- A concrete default state used to instantiate theorems (fields as a fresh
interactive run would choose them). -/
def baseState : AppState :=
  { pattern := "1", speed := "2", chase_color := "1", random_palette := "1",
    bounce_color := "1" }

/-- C3 — counterexample. The claim says Chase and Bounce delays are slower
(larger) than the Random delay at each equivalent speed label; in the source
table it is the opposite: at speed `"1"` (Slow) Chase's delay 0.08 is smaller
than Random's 0.30. -/
theorem delay_table_counterexample :
    get_delay { baseState with pattern := "1", speed := "1" } <
      get_delay { baseState with pattern := "2", speed := "1" } := by
  simp [get_delay, dictGet, SPEED_MAP, baseState, List.find?, EMERGENCY_DELAY_SECONDS]
  norm_num

/-- C3 — amended: `get_delay` returns the fixed 0.12 s emergency delay for
pattern `"4"` regardless of speed; for Chase, Random and Bounce it returns the
(pattern, speed) entry of the 3×3 `SPEED_MAP` table; all table values lie
within [0.008, 0.30]; and at each equivalent speed label the Chase and Bounce
delays are faster (smaller) than the Random delay — not slower, as claimed. -/
theorem delay_table_amended (s : AppState)
    (hp : s.pattern ∈ ["1", "2", "3"]) (hs : s.speed ∈ ["1", "2", "3"]) :
    get_delay { s with pattern := "4" } = 0.12 ∧
      get_delay s =
        dictGet (((SPEED_MAP.find? (fun e => e.1 = s.pattern)).map
          (fun e => e.2)).getD []) s.speed ∧
      (0.008 : ℚ) ≤ get_delay s ∧ get_delay s ≤ 0.30 ∧
      get_delay { s with pattern := "1" } < get_delay { s with pattern := "2" } ∧
      get_delay { s with pattern := "3" } < get_delay { s with pattern := "2" } := by
  have hp' : s.pattern = "1" ∨ s.pattern = "2" ∨ s.pattern = "3" := by
    simpa using hp
  have hs' : s.speed = "1" ∨ s.speed = "2" ∨ s.speed = "3" := by
    simpa using hs
  rcases hp' with h | h | h <;> rcases hs' with h' | h' | h' <;>
    simp [get_delay, dictGet, SPEED_MAP, List.find?, EMERGENCY_DELAY_SECONDS, h, h'] <;>
    norm_num

/-- C3 — witness: the amended theorem applied at pattern Chase, speed Slow. -/
theorem delay_table_witness :
    get_delay { baseState with pattern := "4", speed := "1" } = 0.12 := by
  have h := delay_table_amended { baseState with pattern := "1", speed := "1" }
    (by decide) (by decide)
  exact h.1

/-- C9 — confirmed: each non-terminal flush of the software sink increments
the frame counter (so the first flush prints counter 1) and emits exactly the
prefix `Frame %04d | ` followed by one glyph per pixel, each glyph drawn from
`{., W, R, G, B}` — `.` exactly for the packed color 0, `W` when all three
channels exceed 180, else the letter of the maximal channel with ties broken
R over G over B; the all-off 4-pixel first flush is the literal
`Frame 0001 | ....`. -/
theorem software_sink_spec (frame : Nat) (pixels : List Int) :
    (virtualStripShow frame pixels).1 = frame + 1 ∧
      (virtualStripShow frame pixels).2 =
        "Frame " ++ pad4 (frame + 1) ++ " | " ++
          String.mk (pixels.map color_to_ascii) ∧
      (pixels.map color_to_ascii).length = pixels.length ∧
      (∀ c : Int, color_to_ascii c ∈ ['.', 'W', 'R', 'G', 'B']) ∧
      (∀ c : Int, color_to_ascii c = '.' ↔ c = 0) ∧
      (∀ c : Int, c ≠ 0 →
        c / 65536 % 256 > 180 → c / 256 % 256 > 180 → c % 256 > 180 →
        color_to_ascii c = 'W') ∧
      (∀ c : Int, c ≠ 0 →
        ¬(c / 65536 % 256 > 180 ∧ c / 256 % 256 > 180 ∧ c % 256 > 180) →
        c / 65536 % 256 ≥ c / 256 % 256 → c / 65536 % 256 ≥ c % 256 →
        color_to_ascii c = 'R') ∧
      (∀ c : Int, c ≠ 0 →
        ¬(c / 65536 % 256 > 180 ∧ c / 256 % 256 > 180 ∧ c % 256 > 180) →
        ¬(c / 65536 % 256 ≥ c / 256 % 256 ∧ c / 65536 % 256 ≥ c % 256) →
        c / 256 % 256 ≥ c / 65536 % 256 → c / 256 % 256 ≥ c % 256 →
        color_to_ascii c = 'G') ∧
      virtualStripShow 0 [0, 0, 0, 0] = (1, "Frame 0001 | ....") := by
  refine ⟨rfl, rfl, by simp, ?_, ?_, ?_, ?_, ?_, by decide⟩
  · intro c
    simp only [color_to_ascii]
    split_ifs <;> simp
  · intro c
    constructor
    · intro h
      by_contra hc
      simp only [color_to_ascii, if_neg hc] at h
      split_ifs at h <;> simp_all
    · intro h
      simp [color_to_ascii, h]
  · intro c hc h1 h2 h3
    simp [color_to_ascii, hc, h1, h2, h3]
  · intro c hc hw hr1 hr2
    simp only [color_to_ascii, if_neg hc]
    rw [if_neg (by tauto), if_pos ⟨hr1, hr2⟩]
  · intro c hc hw hr hg1 hg2
    simp only [color_to_ascii, if_neg hc]
    rw [if_neg (by tauto), if_neg (by tauto), if_pos ⟨hg1, hg2⟩]

/-- C9 — witness: the theorem applied at the first flush of an all-off
4-pixel strip. -/
theorem software_sink_witness :
    virtualStripShow 0 [0, 0, 0, 0] = (1, "Frame 0001 | ....") := by
  have h := software_sink_spec 0 [0, 0, 0, 0]
  exact h.2.2.2.2.2.2.2.2

/-- A nonnegative rational rounds to a nonnegative integer. -/
lemma roundHalfEven_nonneg (r : ℚ) (hr : 0 ≤ r) : 0 ≤ roundHalfEven r := by
  have h0 : 0 ≤ ⌊r⌋ := Int.floor_nonneg.mpr hr
  unfold roundHalfEven
  split_ifs <;> omega

/-- Rounding to the nearest integer moves up by at most one half. -/
lemma roundHalfEven_le (r : ℚ) : (roundHalfEven r : ℚ) ≤ r + 1/2 := by
  have hfl : (⌊r⌋ : ℚ) ≤ r := Int.floor_le r
  unfold roundHalfEven
  split_ifs with h1 h2 h3 <;> push_cast <;> linarith

/-- Integers are fixed points of half-even rounding. -/
lemma roundHalfEven_intCast (m : ℤ) : roundHalfEven (m : ℚ) = m := by
  unfold roundHalfEven
  rw [Int.floor_intCast]
  norm_num

/-- binary64 rounding keeps nonnegative values nonnegative. -/
lemma round64_nonneg (q : ℚ) (hq : 0 ≤ q) : 0 ≤ round64 q := by
  simp only [round64]
  split_ifs with h
  · exact le_refl 0
  · have h2e : (0:ℚ) < 2 ^ max (Int.log 2 |q| - 52) (-1074) := zpow_pos (by norm_num) _
    have hrhe := roundHalfEven_nonneg _ (div_nonneg hq h2e.le)
    exact mul_nonneg (by exact_mod_cast hrhe) h2e.le

/-- binary64 rounding overshoots by at most half an ulp: a relative `2^-53`
in the normal range plus the absolute subnormal half-spacing `2^-1075`. -/
lemma round64_le_bound (q : ℚ) (hq : 0 ≤ q) :
    round64 q ≤ q * (1 + 2 ^ (-53 : ℤ)) + 2 ^ (-1075 : ℤ) := by
  simp only [round64]
  split_ifs with h
  · have h1 : (0:ℚ) ≤ q * (1 + 2 ^ (-53 : ℤ)) := mul_nonneg hq (by positivity)
    have h2 : (0:ℚ) < 2 ^ (-1075 : ℤ) := zpow_pos (by norm_num) _
    linarith
  · have hq' : (0:ℚ) < q := lt_of_le_of_ne hq (Ne.symm h)
    have habs : |q| = q := abs_of_pos hq'
    rw [habs]
    have h2e : (0:ℚ) < 2 ^ max (Int.log 2 q - 52) (-1074) := zpow_pos (by norm_num) _
    have hmain : (roundHalfEven (q / 2 ^ max (Int.log 2 q - 52) (-1074)) : ℚ) *
        2 ^ max (Int.log 2 q - 52) (-1074) ≤
        q + 2 ^ max (Int.log 2 q - 52) (-1074) / 2 := by
      have hstep := mul_le_mul_of_nonneg_right
        (roundHalfEven_le (q / 2 ^ max (Int.log 2 q - 52) (-1074))) h2e.le
      calc (roundHalfEven (q / 2 ^ max (Int.log 2 q - 52) (-1074)) : ℚ) *
          2 ^ max (Int.log 2 q - 52) (-1074)
          ≤ (q / 2 ^ max (Int.log 2 q - 52) (-1074) + 1/2) *
            2 ^ max (Int.log 2 q - 52) (-1074) := hstep
        _ = q + 2 ^ max (Int.log 2 q - 52) (-1074) / 2 := by
            field_simp
            ring
    have hulp : 2 ^ max (Int.log 2 q - 52) (-1074) / 2 ≤
        q * 2 ^ (-53 : ℤ) + 2 ^ (-1075 : ℤ) := by
      rcases max_cases (Int.log 2 q - 52) (-1074) with ⟨hmax, _⟩ | ⟨hmax, _⟩ <;> rw [hmax]
      · have hlog : (2:ℚ) ^ Int.log 2 q ≤ q := Int.zpow_log_le_self (by norm_num) hq'
        have he : (2:ℚ) ^ (Int.log 2 q - 52) / 2 =
            2 ^ Int.log 2 q * 2 ^ (-53 : ℤ) := by
          rw [div_eq_mul_inv, show ((2:ℚ))⁻¹ = (2:ℚ) ^ (-1 : ℤ) by norm_num,
            ← zpow_add₀ (two_ne_zero : (2:ℚ) ≠ 0),
            ← zpow_add₀ (two_ne_zero : (2:ℚ) ≠ 0)]
          congr 1
          omega
        rw [he]
        have h53 : (0:ℚ) ≤ 2 ^ (-53 : ℤ) := (zpow_pos (by norm_num) _).le
        have h1075 : (0:ℚ) < 2 ^ (-1075 : ℤ) := zpow_pos (by norm_num) _
        nlinarith [mul_le_mul_of_nonneg_right hlog h53]
      · have he : (2:ℚ) ^ (-1074 : ℤ) / 2 = 2 ^ (-1075 : ℤ) := by
          rw [div_eq_mul_inv, show ((2:ℚ))⁻¹ = (2:ℚ) ^ (-1 : ℤ) by norm_num,
            ← zpow_add₀ (two_ne_zero : (2:ℚ) ≠ 0)]
          congr 1
        rw [he]
        have := mul_nonneg hq ((zpow_pos (by norm_num : (0:ℚ) < 2) (-53 : ℤ)).le)
        linarith
    linarith

/-- binary64 rounding is exact on integers up to `2^52`. -/
lemma round64_intCast (n : ℤ) (h0 : 0 ≤ n) (h52 : n ≤ 2 ^ 52) : round64 (n : ℚ) = n := by
  rcases h0.eq_or_lt with h | h
  · rw [← h]
    simp [round64]
  · have hq' : (0:ℚ) < (n:ℚ) := by exact_mod_cast h
    have hn1 : (1:ℚ) ≤ (n:ℚ) := by exact_mod_cast h
    simp only [round64]
    rw [if_neg hq'.ne']
    rw [abs_of_pos hq']
    have hlog0 : (0:ℤ) ≤ Int.log 2 (n:ℚ) :=
      (Int.zpow_le_iff_le_log (by norm_num) hq').mp (by simpa using hn1)
    have hlog52 : Int.log 2 (n:ℚ) ≤ 52 := by
      have hlt : (n:ℚ) < (2:ℚ) ^ ((52:ℤ) + 1) := by
        calc (n:ℚ) ≤ ((2:ℤ)^52 : ℤ) := by exact_mod_cast h52
          _ < (2:ℚ) ^ ((52:ℤ) + 1) := by norm_num
      exact Int.lt_add_one_iff.mp ((Int.lt_zpow_iff_log_lt (by norm_num) hq').mp hlt)
    rw [max_eq_left (by omega)]
    have hne : ((2:ℚ) ^ (Int.log 2 (n:ℚ) - 52)) ≠ 0 := (zpow_pos (by norm_num) _).ne'
    have hkey : (2:ℚ) ^ ((52 - Int.log 2 (n:ℚ)).toNat : ℕ) *
        2 ^ (Int.log 2 (n:ℚ) - 52) = 1 := by
      rw [← zpow_natCast (2:ℚ) (52 - Int.log 2 (n:ℚ)).toNat,
        Int.toNat_of_nonneg (by omega), ← zpow_add₀ (two_ne_zero : (2:ℚ) ≠ 0)]
      norm_num
    have hdiv : (n:ℚ) / 2 ^ (Int.log 2 (n:ℚ) - 52) =
        ((n * 2 ^ (52 - Int.log 2 (n:ℚ)).toNat : ℤ) : ℚ) := by
      rw [div_eq_iff hne]
      push_cast
      rw [mul_assoc, hkey, mul_one]
    rw [hdiv, roundHalfEven_intCast]
    push_cast
    rw [mul_assoc, hkey, mul_one]

/-- Characterize `Int.log 2` by bracketing powers of two. -/
lemma log2_eq (q : ℚ) (z : ℤ) (hq : 0 < q) (h1 : (2:ℚ) ^ z ≤ q)
    (h2 : q < (2:ℚ) ^ (z + 1)) : Int.log 2 q = z := by
  have hle := (Int.zpow_le_iff_le_log (by norm_num) hq).mp h1
  have hlt := (Int.lt_zpow_iff_log_lt (by norm_num) hq).mp h2
  exact le_antisymm (Int.lt_add_one_iff.mp hlt) hle

/-- The full analog pipeline — binary64 divide, binary64 multiply, truncate —
lands in `[0, max_brightness]` whenever the bounded sample lies in
`[0, analog_max]` and `max_brightness ∈ [0, 255]`. -/
lemma float_scaled_bounds (am M b : ℤ) (ham : 0 < am) (hb0 : 0 ≤ b)
    (hble : b ≤ am) (hM0 : 0 ≤ M) (hM255 : M ≤ 255) :
    0 ≤ truncQ (round64 (round64 ((b : ℚ) / (am : ℚ)) * (M : ℚ))) ∧
      truncQ (round64 (round64 ((b : ℚ) / (am : ℚ)) * (M : ℚ))) ≤ M := by
  have hamQ : (0:ℚ) < (am:ℚ) := by exact_mod_cast ham
  have hq10 : (0:ℚ) ≤ (b:ℚ) / (am:ℚ) := div_nonneg (by exact_mod_cast hb0) hamQ.le
  have hq11 : (b:ℚ) / (am:ℚ) ≤ 1 := (div_le_one hamQ).mpr (by exact_mod_cast hble)
  have hf10 : 0 ≤ round64 ((b:ℚ) / (am:ℚ)) := round64_nonneg _ hq10
  have hf1le : round64 ((b:ℚ) / (am:ℚ)) ≤ 1 + 2 ^ (-52 : ℤ) := by
    have hb1 := round64_le_bound _ hq10
    have hstep : (b:ℚ) / (am:ℚ) * (1 + 2 ^ (-53 : ℤ)) ≤ 1 * (1 + 2 ^ (-53 : ℤ)) :=
      mul_le_mul_of_nonneg_right hq11 (by positivity)
    have hnum : (1:ℚ) * (1 + 2 ^ (-53 : ℤ)) + 2 ^ (-1075 : ℤ) ≤ 1 + 2 ^ (-52 : ℤ) := by
      norm_num
    linarith
  have hM0Q : (0:ℚ) ≤ (M:ℚ) := by exact_mod_cast hM0
  have hM255Q : (M:ℚ) ≤ 255 := by exact_mod_cast hM255
  have hq20 : (0:ℚ) ≤ round64 ((b:ℚ) / (am:ℚ)) * (M:ℚ) := mul_nonneg hf10 hM0Q
  have hf20 : 0 ≤ round64 (round64 ((b:ℚ) / (am:ℚ)) * (M:ℚ)) := round64_nonneg _ hq20
  have hf2lt : round64 (round64 ((b:ℚ) / (am:ℚ)) * (M:ℚ)) < (M:ℚ) + 1 := by
    have hb2 := round64_le_bound _ hq20
    have hq2le : round64 ((b:ℚ) / (am:ℚ)) * (M:ℚ) ≤ (1 + 2 ^ (-52 : ℤ)) * (M:ℚ) :=
      mul_le_mul_of_nonneg_right hf1le hM0Q
    have hstep : round64 ((b:ℚ) / (am:ℚ)) * (M:ℚ) * (1 + 2 ^ (-53 : ℤ)) ≤
        (1 + 2 ^ (-52 : ℤ)) * (M:ℚ) * (1 + 2 ^ (-53 : ℤ)) :=
      mul_le_mul_of_nonneg_right hq2le (by positivity)
    have hc : (0:ℚ) ≤ (1 + 2 ^ (-52 : ℤ)) * (1 + 2 ^ (-53 : ℤ)) - 1 := by norm_num
    have hMc : (M:ℚ) * ((1 + 2 ^ (-52 : ℤ)) * (1 + 2 ^ (-53 : ℤ)) - 1) ≤
        255 * ((1 + 2 ^ (-52 : ℤ)) * (1 + 2 ^ (-53 : ℤ)) - 1) :=
      mul_le_mul_of_nonneg_right hM255Q hc
    have hnum : (255:ℚ) * ((1 + 2 ^ (-52 : ℤ)) * (1 + 2 ^ (-53 : ℤ)) - 1) +
        2 ^ (-1075 : ℤ) < 1 := by norm_num
    nlinarith
  have htr : truncQ (round64 (round64 ((b:ℚ) / (am:ℚ)) * (M:ℚ))) =
      ⌊round64 (round64 ((b:ℚ) / (am:ℚ)) * (M:ℚ))⌋ := by
    rw [truncQ, if_pos hf20]
  refine ⟨?_, ?_⟩
  · rw [htr]
    exact Int.floor_nonneg.mpr hf20
  · rw [htr]
    have hlt : ⌊round64 (round64 ((b:ℚ) / (am:ℚ)) * (M:ℚ))⌋ < M + 1 :=
      Int.floor_lt.mpr (by push_cast; linarith)
    omega

/-- C7 — counterexample. The claim says brightness becomes the exact
`⌊(clamp(sample, 0, analog_max) / analog_max) · max_brightness⌋`; with
`analog_max = 100`, `max_brightness = 100`, sample 29, binary64 arithmetic
computes `29/100` as `5224175567749775 · 2^-54`, whose product with 100 is
`8162774324609023.4375 · 2^-48·2^48 < 29`, so `int()` truncates to 28 — while
the exact floor formula gives 29. -/
theorem analog_scaling_counterexample :
    (apply_pi_input_response
        { baseState with input_mode := "analog", analog_max := 100, max_brightness := 100 }
        0 none (some 29)).1.brightness = 28 ∧
      max 0 (min (100:ℤ) 29) * 100 / 100 = 29 ∧ (28:ℤ) ≠ 29 := by
  refine ⟨?_, by decide, by decide⟩
  have hlog1 : Int.log 2 (29/100 : ℚ) = -2 := by
    refine log2_eq _ _ (by norm_num) ?_ ?_ <;> norm_num
  have hfl1 : round64 ((29:ℚ)/100) = 5224175567749775 * (2:ℚ) ^ (-54 : ℤ) := by
    simp only [round64]
    rw [if_neg (by norm_num)]
    rw [abs_of_pos (by norm_num : (0:ℚ) < 29/100), hlog1]
    rw [show max ((-2:ℤ) - 52) (-1074) = (-54 : ℤ) by norm_num]
    rw [show (29/100 : ℚ) / (2:ℚ) ^ (-54 : ℤ) = 522417556774977536/100 by norm_num]
    have hfloor : ⌊(522417556774977536/100 : ℚ)⌋ = 5224175567749775 := by
      rw [Int.floor_eq_iff]
      norm_num
    rw [show roundHalfEven (522417556774977536/100 : ℚ) = 5224175567749775 by
      unfold roundHalfEven
      rw [hfloor]
      norm_num]
    norm_num
  have hlog2 : Int.log 2 (5224175567749775 * (2:ℚ) ^ (-54 : ℤ) * 100) = 4 := by
    refine log2_eq _ _ (by norm_num) ?_ ?_ <;> norm_num
  have hfl2 : round64 (5224175567749775 * (2:ℚ) ^ (-54 : ℤ) * 100) =
      8162774324609023 * (2:ℚ) ^ (-48 : ℤ) := by
    simp only [round64]
    rw [if_neg (by norm_num)]
    rw [abs_of_pos (by norm_num : (0:ℚ) < 5224175567749775 * (2:ℚ) ^ (-54 : ℤ) * 100),
      hlog2]
    rw [show max ((4:ℤ) - 52) (-1074) = (-48 : ℤ) by norm_num]
    rw [show (5224175567749775 * (2:ℚ) ^ (-54 : ℤ) * 100) / (2:ℚ) ^ (-48 : ℤ) =
      130604389193744375/16 by norm_num]
    have hfloor : ⌊(130604389193744375/16 : ℚ)⌋ = 8162774324609023 := by
      rw [Int.floor_eq_iff]
      norm_num
    rw [show roundHalfEven (130604389193744375/16 : ℚ) = 8162774324609023 by
      unfold roundHalfEven
      rw [hfloor]
      norm_num]
    norm_num
  have hred : (apply_pi_input_response
      { baseState with input_mode := "analog", analog_max := 100, max_brightness := 100 }
      0 none (some 29)).1.brightness =
      clamp_brightness (truncQ (round64 (round64 ((29:ℚ)/100) * 100))) := by
    simp only [apply_pi_input_response, baseState]
    norm_num
    rw [if_neg (by decide), if_neg (by decide)]
  rw [hred, hfl1, hfl2]
  rw [show truncQ (8162774324609023 * (2:ℚ) ^ (-48 : ℤ)) = 28 by
    rw [truncQ, if_pos (by positivity)]
    rw [Int.floor_eq_iff]
    norm_num]
  decide

/-- C7 — amended: in analog mode with a sample present,
`apply_pi_input_response` sets brightness (state and sink) to the binary64
computation `int(fl(fl(clamp(sample, 0, analog_max) / analog_max) ·
max_brightness))`, which stays within `[0, max_brightness]` but can fall one
below the claim's exact floor formula; the endpoint behavior is exact —
sample 0 yields 0, sample `analog_max` yields exactly `max_brightness`,
larger samples clamp to `max_brightness` — and with no sample (analog or
digital mode) both the state brightness and the sink brightness are
unchanged. -/
theorem analog_scaling_amended (s : AppState) (sb : Int)
    (hmode : s.input_mode = "analog") (ham : 1 ≤ s.analog_max)
    (hmb : 0 ≤ s.max_brightness ∧ s.max_brightness ≤ 255) :
    (∀ a : Int,
      (apply_pi_input_response s sb none (some a)).1.brightness =
          clamp_brightness (truncQ (round64 (round64
            (((max 0 (min s.analog_max a) : ℤ) : ℚ) / (s.analog_max : ℚ)) *
            (s.max_brightness : ℚ)))) ∧
        (apply_pi_input_response s sb none (some a)).2 =
          (apply_pi_input_response s sb none (some a)).1.brightness ∧
        0 ≤ (apply_pi_input_response s sb none (some a)).1.brightness ∧
        (apply_pi_input_response s sb none (some a)).1.brightness ≤ s.max_brightness ∧
        (a = 0 → (apply_pi_input_response s sb none (some a)).1.brightness = 0) ∧
        (a = s.analog_max →
          (apply_pi_input_response s sb none (some a)).1.brightness = s.max_brightness) ∧
        (s.analog_max ≤ a →
          (apply_pi_input_response s sb none (some a)).1.brightness = s.max_brightness)) ∧
      apply_pi_input_response s sb none none = (s, sb) ∧
      apply_pi_input_response { s with input_mode := "digital" } sb none none =
        ({ s with input_mode := "digital" }, sb) := by
  have hoff : s.input_mode ≠ "off" := by rw [hmode]; decide
  have hdig : s.input_mode ≠ "digital" := by rw [hmode]; decide
  have hampos : (0 : Int) < s.analog_max := by omega
  have hmax : max 1 s.analog_max = s.analog_max := max_eq_right ham
  have hsat : clamp_brightness (truncQ (round64 (round64
      ((s.analog_max : ℚ) / (s.analog_max : ℚ)) * (s.max_brightness : ℚ)))) =
      s.max_brightness := by
    rw [div_self (by exact_mod_cast hampos.ne' : ((s.analog_max : ℤ) : ℚ) ≠ 0)]
    rw [show round64 (1:ℚ) = 1 by
      have h := round64_intCast 1 (by norm_num) (by norm_num)
      simpa using h]
    rw [one_mul, round64_intCast s.max_brightness hmb.1
      (le_trans hmb.2 (by norm_num))]
    rw [truncQ, if_pos (by exact_mod_cast hmb.1)]
    rw [Int.floor_intCast]
    simp only [clamp_brightness]
    omega
  refine ⟨?_, ?_, ?_⟩
  · intro a
    have hred : apply_pi_input_response s sb none (some a) =
        ({ s with brightness := clamp_brightness (truncQ (round64 (round64
            (((max 0 (min (max 1 s.analog_max) a) : ℤ) : ℚ) /
              ((max 1 s.analog_max : ℤ) : ℚ)) *
            (s.max_brightness : ℚ)))) },
         clamp_brightness (clamp_brightness (truncQ (round64 (round64
            (((max 0 (min (max 1 s.analog_max) a) : ℤ) : ℚ) /
              ((max 1 s.analog_max : ℤ) : ℚ)) *
            (s.max_brightness : ℚ)))))) := by
      simp only [apply_pi_input_response, if_neg hoff, if_neg hdig]
    rw [hred, hmax]
    have hbounds := float_scaled_bounds s.analog_max s.max_brightness
      (max 0 (min s.analog_max a)) hampos (le_max_left 0 _) (by omega) hmb.1 hmb.2
    refine ⟨rfl, ?_, ?_, ?_, ?_, ?_, ?_⟩
    · show clamp_brightness (clamp_brightness (truncQ (round64 (round64
          (((max 0 (min s.analog_max a) : ℤ) : ℚ) / (s.analog_max : ℚ)) *
          (s.max_brightness : ℚ))))) = _
      simp only [clamp_brightness]
      omega
    · show (0:ℤ) ≤ clamp_brightness _
      simp only [clamp_brightness]
      omega
    · show clamp_brightness _ ≤ s.max_brightness
      simp only [clamp_brightness]
      omega
    · intro ha
      subst ha
      show clamp_brightness (truncQ (round64 (round64
          (((max 0 (min s.analog_max 0) : ℤ) : ℚ) / (s.analog_max : ℚ)) *
          (s.max_brightness : ℚ)))) = 0
      rw [show max 0 (min s.analog_max (0:ℤ)) = 0 by omega]
      rw [Int.cast_zero, zero_div]
      rw [show round64 (0:ℚ) = 0 by simp [round64], zero_mul]
      rw [show round64 (0:ℚ) = 0 by simp [round64]]
      rw [show truncQ (0:ℚ) = 0 by simp [truncQ]]
      decide
    · intro ha
      subst ha
      show clamp_brightness (truncQ (round64 (round64
          (((max 0 (min s.analog_max s.analog_max) : ℤ) : ℚ) / (s.analog_max : ℚ)) *
          (s.max_brightness : ℚ)))) = s.max_brightness
      rw [show max 0 (min s.analog_max s.analog_max) = s.analog_max by omega]
      exact hsat
    · intro ha
      show clamp_brightness (truncQ (round64 (round64
          (((max 0 (min s.analog_max a) : ℤ) : ℚ) / (s.analog_max : ℚ)) *
          (s.max_brightness : ℚ)))) = s.max_brightness
      rw [show max 0 (min s.analog_max a) = s.analog_max by omega]
      exact hsat
  · simp only [apply_pi_input_response, if_neg hoff, if_neg hdig]
  · simp [apply_pi_input_response]

/-- C7 — witness: the amended theorem applied at a state reading the default
analog scale, with a full-scale sample. -/
theorem analog_scaling_witness :
    (apply_pi_input_response
        { baseState with input_mode := "analog", max_brightness := 200 }
        0 none (some 4095)).1.brightness = 200 := by
  have h := analog_scaling_amended
    { baseState with input_mode := "analog", max_brightness := 200 } 0 rfl
    (by norm_num [baseState]) ⟨by norm_num [baseState], by norm_num [baseState]⟩
  exact (h.1 4095).2.2.2.2.2.1 (by norm_num [baseState])

/-- `handle_key` never touches the `emergency_only` flag. -/
lemma handle_key_emergency_only (s : AppState) (k : String) :
    (handle_key s k).1.emergency_only = s.emergency_only := by
  simp only [handle_key]
  split_ifs <;> rfl

/-- `handle_key` sets the pattern either to a key from the available set, to
the cycled next available pattern, or leaves it unchanged. -/
lemma handle_key_pattern_cases (s : AppState) (k : String) :
    (handle_key s k).1.pattern = k ∧ k ∈ available_patterns s.emergency_only ∨
      (handle_key s k).1.pattern =
        cycle_choice s.pattern (available_patterns s.emergency_only) ∨
      (handle_key s k).1.pattern = s.pattern := by
  simp only [handle_key]
  split_ifs with h1 <;>
    first
      | exact Or.inl ⟨rfl, h1⟩
      | exact Or.inr (Or.inl rfl)
      | exact Or.inr (Or.inr rfl)

/-- `cycle_choice` returns an element of a nonempty key list. -/
lemma cycle_choice_mem (c : String) (keys : List String) (h : keys ≠ []) :
    cycle_choice c keys ∈ keys := by
  have hlen : 0 < keys.length := List.length_pos.mpr h
  have hidx : (keys.indexOf c + 1) % keys.length < keys.length := Nat.mod_lt _ hlen
  rw [cycle_choice, List.getD_eq_getElem _ _ hidx]
  exact List.getElem_mem hidx

/-- In emergency-only mode, a keystroke keeps the pattern pinned to `"4"`. -/
lemma handle_key_pattern_em (s : AppState) (k : String)
    (he : s.emergency_only = true) (hp : s.pattern = "4") :
    (handle_key s k).1.pattern = "4" := by
  rcases handle_key_pattern_cases s k with ⟨hk, hmem⟩ | h | h
  · rw [he] at hmem
    rw [hk]
    simpa [available_patterns] using hmem
  · rw [h, hp, he]
    decide
  · rw [h]; exact hp

/-- Outside emergency-only mode, no keystroke can set the pattern to `"4"`. -/
lemma handle_key_pattern_nonem (s : AppState) (k : String)
    (he : s.emergency_only = false) (hp : s.pattern ≠ "4") :
    (handle_key s k).1.pattern ≠ "4" := by
  rcases handle_key_pattern_cases s k with ⟨hk, hmem⟩ | h | h
  · rw [he] at hmem
    rw [hk]
    intro h4
    rw [h4] at hmem
    revert hmem
    decide
  · rw [h, he]
    have hm := cycle_choice_mem s.pattern ["1", "2", "3"] (by decide)
    intro hc
    rw [show available_patterns false = ["1", "2", "3"] from rfl] at hc
    rw [hc] at hm
    revert hm
    decide
  · rw [h]; exact hp

/-- In emergency-only mode, any keystroke sequence keeps the pattern `"4"`. -/
lemma handle_keys_pattern_em (keys : List String) :
    ∀ s : AppState, s.emergency_only = true → s.pattern = "4" →
      (handle_keys s keys).pattern = "4" := by
  induction keys with
  | nil => intro s _ hp; exact hp
  | cons k ks ih =>
    intro s he hp
    exact ih (handle_key s k).1 ((handle_key_emergency_only s k).trans he)
      (handle_key_pattern_em s k he hp)

/-- Outside emergency-only mode, no keystroke sequence reaches pattern `"4"`. -/
lemma handle_keys_pattern_nonem (keys : List String) :
    ∀ s : AppState, s.emergency_only = false → s.pattern ≠ "4" →
      (handle_keys s keys).pattern ≠ "4" := by
  induction keys with
  | nil => intro s _ hp; exact hp
  | cons k ks ih =>
    intro s he hp
    exact ih (handle_key s k).1 ((handle_key_emergency_only s k).trans he)
      (handle_key_pattern_nonem s k he hp)

/-- `normalize_pattern_for_mode` never touches the `emergency_only` flag. -/
lemma normalize_emergency_only (s : AppState) :
    (normalize_pattern_for_mode s).emergency_only = s.emergency_only := by
  simp only [normalize_pattern_for_mode]
  split_ifs <;> rfl

/-- C6 — confirmed: with `emergency_only` set, the pattern is `"4"` after
normalization and stays `"4"` after every keystroke sequence processed by
`handle_key` (every other selection is refused); with `emergency_only` unset,
starting from a normalized state, no keystroke sequence can ever make the
pattern `"4"`. -/
theorem emergency_only_pinning (s : AppState) :
    (s.emergency_only = true →
      (normalize_pattern_for_mode s).pattern = "4" ∧
      ∀ keys : List String,
        (handle_keys (normalize_pattern_for_mode s) keys).pattern = "4") ∧
    (s.emergency_only = false →
      (normalize_pattern_for_mode s).pattern ≠ "4" ∧
      ∀ keys : List String,
        (handle_keys (normalize_pattern_for_mode s) keys).pattern ≠ "4") := by
  constructor
  · intro he
    have hnorm : (normalize_pattern_for_mode s).pattern = "4" := by
      simp [normalize_pattern_for_mode, he]
    exact ⟨hnorm, fun keys => handle_keys_pattern_em keys _
      ((normalize_emergency_only s).trans he) hnorm⟩
  · intro he
    have hnorm : (normalize_pattern_for_mode s).pattern ≠ "4" := by
      simp only [normalize_pattern_for_mode, he]
      rw [if_neg (by simp)]
      split_ifs with h4
      · simp
      · exact h4
    exact ⟨hnorm, fun keys => handle_keys_pattern_nonem keys _
      ((normalize_emergency_only s).trans he) hnorm⟩

/-- C6 — witness: the theorem applied at a concrete emergency-only state and
the keystroke sequence `1, p` (both attempts to leave SOS are refused). -/
theorem emergency_only_pinning_witness :
    (handle_keys (normalize_pattern_for_mode
      { baseState with emergency_only := true }) ["1", "p"]).pattern = "4" := by
  have h := (emergency_only_pinning { baseState with emergency_only := true }).1 rfl
  exact h.2 ["1", "p"]

/-- Iterated `pattern_step_chase` on the state (each invocation flushes one
frame; the iterate tracks the state across frames). -/
def chase_iter (n : Nat) (k : Nat) (s : AppState) : AppState :=
  (fun t => (pattern_step_chase n t).1)^[k] s

/-- The active color `pattern_step_chase` writes: the fixed RGB of the named
chase color, or `wheel((rainbow_offset + chase_position * 8) mod 256)` for the
Rainbow option `"4"`. -/
def chase_active_color (s : AppState) : Int :=
  if s.chase_color = "4" then
    wheel ((s.rainbow_offset + s.chase_position * 8) % 256)
  else colorTableGet CHASE_COLORS s.chase_color

/-- One chase step advances `chase_position` to `(chase_position + 1) % n`. -/
lemma chase_step_position (n : Nat) (s : AppState) :
    (pattern_step_chase n s).1.chase_position = (s.chase_position + 1) % (n : Int) := by
  simp only [pattern_step_chase]

/-- One chase step advances `rainbow_offset` by 3 mod 256 exactly when the
Rainbow option is selected. -/
lemma chase_step_rainbow (n : Nat) (s : AppState) :
    (pattern_step_chase n s).1.rainbow_offset =
      (if s.chase_color = "4" then (s.rainbow_offset + 3) % 256
       else s.rainbow_offset) := by
  simp only [pattern_step_chase]
  split_ifs <;> rfl

/-- After `k` chase steps the position is `(start + k) % n`. -/
lemma chase_iter_position (n : Nat) (s : AppState)
    (hp : 0 ≤ s.chase_position ∧ s.chase_position < n) (k : Nat) :
    (chase_iter n k s).chase_position = (s.chase_position + k) % (n : Int) := by
  induction k with
  | zero =>
    simp only [chase_iter, Function.iterate_zero_apply, Nat.cast_zero, add_zero]
    exact (Int.emod_eq_of_lt hp.1 hp.2).symm
  | succ k ih =>
    have hstep : chase_iter n (k + 1) s = (pattern_step_chase n (chase_iter n k s)).1 := by
      simp only [chase_iter, Function.iterate_succ_apply']
    rw [hstep, chase_step_position, ih, Int.emod_add_emod]
    congr 1
    push_cast
    ring

/-- The frame flushed by one chase step: the cleared strip with exactly the
pixel at `chase_position` set to the active color. -/
lemma chase_step_buffer (n : Nat) (s : AppState)
    (hp : 0 ≤ s.chase_position ∧ s.chase_position < n) :
    (pattern_step_chase n s).2 =
      (List.replicate n (0 : Int)).set s.chase_position.toNat (chase_active_color s) := by
  simp only [pattern_step_chase, setPixelColor, clearBuffer, List.length_replicate]
  rw [if_pos ⟨hp.1, by exact_mod_cast hp.2⟩]
  congr 1
  simp only [chase_active_color]
  split_ifs <;> rfl

/-- C4 — confirmed: each `pattern_step_chase` invocation flushes a frame of
length `n` whose only lit pixel is at the current `chase_position`, carrying
the active color (fixed RGB, or the rainbow wheel value, advancing
`rainbow_offset` by 3 mod 256 only when Rainbow is active), and advances
`chase_position` to `(chase_position + 1) % n`, so the position returns to its
start after exactly `n` steps; on a strip of length 5 with the fixed Orange
color starting at position 0, five consecutive steps light positions
0, 1, 2, 3, 4 with exactly one lit pixel per frame. -/
theorem chase_step_spec (n : Nat) (hn : 1 ≤ n) (s : AppState)
    (hp : 0 ≤ s.chase_position ∧ s.chase_position < n) :
    ((pattern_step_chase n s).2).length = n ∧
      ((pattern_step_chase n s).2).getD s.chase_position.toNat 0 = chase_active_color s ∧
      (∀ i : Nat, i < n → i ≠ s.chase_position.toNat →
        ((pattern_step_chase n s).2).getD i 0 = 0) ∧
      (pattern_step_chase n s).1.chase_position = (s.chase_position + 1) % (n : Int) ∧
      (pattern_step_chase n s).1.rainbow_offset =
        (if s.chase_color = "4" then (s.rainbow_offset + 3) % 256
         else s.rainbow_offset) ∧
      (chase_iter n n s).chase_position = s.chase_position ∧
      (List.range 5).map
          (fun k => (pattern_step_chase 5 (chase_iter 5 k baseState)).2) =
        [[color 255 140 0, 0, 0, 0, 0],
         [0, color 255 140 0, 0, 0, 0],
         [0, 0, color 255 140 0, 0, 0],
         [0, 0, 0, color 255 140 0, 0],
         [0, 0, 0, 0, color 255 140 0]] := by
  have hposNat : s.chase_position.toNat < n := by omega
  refine ⟨?_, ?_, ?_, chase_step_position n s, chase_step_rainbow n s, ?_, by decide⟩
  · rw [chase_step_buffer n s hp]
    simp
  · rw [chase_step_buffer n s hp]
    rw [List.getD_eq_getElem _ _ (by simpa using hposNat)]
    rw [List.getElem_set]
    simp
  · intro i hi hne
    rw [chase_step_buffer n s hp]
    rw [List.getD_eq_getElem _ _ (by simpa using hi)]
    rw [List.getElem_set]
    rw [if_neg (fun h => hne h.symm)]
    simp
  · rw [chase_iter_position n s hp n]
    rw [show s.chase_position + (n : Int) = s.chase_position + (n : Int) * 1 by ring,
      Int.add_mul_emod_self_left, Int.emod_eq_of_lt hp.1 hp.2]

/-- C4 — witness: the theorem applied at the strip-length-5 scenario state. -/
theorem chase_step_spec_witness :
    (chase_iter 5 5 baseState).chase_position = baseState.chase_position := by
  have h := chase_step_spec 5 (by norm_num) baseState
    ⟨by norm_num [baseState], by norm_num [baseState]⟩
  exact h.2.2.2.2.2.1

/-- `normalize_pattern_for_mode` only rewrites the pattern: `speed`. -/
lemma normalize_speed (s : AppState) :
    (normalize_pattern_for_mode s).speed = s.speed := by
  simp only [normalize_pattern_for_mode]; split_ifs <;> rfl

/-- `normalize_pattern_for_mode` only rewrites the pattern: `chase_color`. -/
lemma normalize_chase_color (s : AppState) :
    (normalize_pattern_for_mode s).chase_color = s.chase_color := by
  simp only [normalize_pattern_for_mode]; split_ifs <;> rfl

/-- `normalize_pattern_for_mode` only rewrites the pattern: `random_palette`. -/
lemma normalize_random_palette (s : AppState) :
    (normalize_pattern_for_mode s).random_palette = s.random_palette := by
  simp only [normalize_pattern_for_mode]; split_ifs <;> rfl

/-- `normalize_pattern_for_mode` only rewrites the pattern: `bounce_color`. -/
lemma normalize_bounce_color (s : AppState) :
    (normalize_pattern_for_mode s).bounce_color = s.bounce_color := by
  simp only [normalize_pattern_for_mode]; split_ifs <;> rfl

/-- `normalize_pattern_for_mode` only rewrites the pattern: `input_mode`. -/
lemma normalize_input_mode (s : AppState) :
    (normalize_pattern_for_mode s).input_mode = s.input_mode := by
  simp only [normalize_pattern_for_mode]; split_ifs <;> rfl

/-- `normalize_pattern_for_mode` only rewrites the pattern: `brightness`. -/
lemma normalize_brightness (s : AppState) :
    (normalize_pattern_for_mode s).brightness = s.brightness := by
  simp only [normalize_pattern_for_mode]; split_ifs <;> rfl

/-- `normalize_pattern_for_mode` only rewrites the pattern: `max_brightness`. -/
lemma normalize_max_brightness (s : AppState) :
    (normalize_pattern_for_mode s).max_brightness = s.max_brightness := by
  simp only [normalize_pattern_for_mode]; split_ifs <;> rfl

/-- `normalize_pattern_for_mode` only rewrites the pattern: `analog_max`. -/
lemma normalize_analog_max (s : AppState) :
    (normalize_pattern_for_mode s).analog_max = s.analog_max := by
  simp only [normalize_pattern_for_mode]; split_ifs <;> rfl

/-- C8 — confirmed: `state_options_from_headless_data` is total on arbitrary
input records and lands every field in its documented enumeration/range
(absent, wrongly-typed or out-of-enumeration values replaced by defaults); a
pattern value outside the enumerated set falls back to `"1"` (Chase), and
with `emergency_only` active any pattern value is coerced to `"4"`
(Emergency SOS). -/
theorem headless_defaults_spec (data : List (String × JValue)) :
    (state_options_from_headless_data data).1.pattern ∈
        available_patterns (state_options_from_headless_data data).1.emergency_only ∧
      (state_options_from_headless_data data).1.speed ∈ SPEED_LABEL_KEYS ∧
      (state_options_from_headless_data data).1.chase_color ∈ CHASE_COLOR_KEYS ∧
      (state_options_from_headless_data data).1.random_palette ∈ RANDOM_PALETTE_KEYS ∧
      (state_options_from_headless_data data).1.bounce_color ∈ BOUNCE_COLOR_KEYS ∧
      (state_options_from_headless_data data).1.input_mode ∈ ["off", "digital", "analog"] ∧
      0 ≤ (state_options_from_headless_data data).1.brightness ∧
      (state_options_from_headless_data data).1.brightness ≤ 255 ∧
      0 ≤ (state_options_from_headless_data data).1.max_brightness ∧
      (state_options_from_headless_data data).1.max_brightness ≤ 255 ∧
      1 ≤ (state_options_from_headless_data data).1.analog_max ∧
      0 ≤ (state_options_from_headless_data data).2.1.frames ∧
      0 ≤ (state_options_from_headless_data data).2.1.duration_seconds ∧
      0 ≤ (state_options_from_headless_data data).2.1.start_delay_seconds ∧
      (as_bool (jsonGet data "emergency_only") false = true →
        (state_options_from_headless_data data).1.pattern = "4") ∧
      (as_bool (jsonGet data "emergency_only") false = false →
        as_str (jsonGet data "pattern") "1" ∉ PATTERN_KEYS →
        (state_options_from_headless_data data).1.pattern = "1") := by
  have hspeed : (state_options_from_headless_data data).1.speed =
      (if as_str (jsonGet data "speed") "2" ∉ SPEED_LABEL_KEYS then "2"
       else as_str (jsonGet data "speed") "2") := by
    simp only [state_options_from_headless_data]; rw [normalize_speed]
  have hchase : (state_options_from_headless_data data).1.chase_color =
      (if as_str (jsonGet data "chase_color") "1" ∉ CHASE_COLOR_KEYS then "1"
       else as_str (jsonGet data "chase_color") "1") := by
    simp only [state_options_from_headless_data]; rw [normalize_chase_color]
  have hpal : (state_options_from_headless_data data).1.random_palette =
      (if as_str (jsonGet data "random_palette") "1" ∉ RANDOM_PALETTE_KEYS then "1"
       else as_str (jsonGet data "random_palette") "1") := by
    simp only [state_options_from_headless_data]; rw [normalize_random_palette]
  have hbounce : (state_options_from_headless_data data).1.bounce_color =
      (if as_str (jsonGet data "bounce_color") "1" ∉ BOUNCE_COLOR_KEYS then "1"
       else as_str (jsonGet data "bounce_color") "1") := by
    simp only [state_options_from_headless_data]; rw [normalize_bounce_color]
  have hmode : (state_options_from_headless_data data).1.input_mode =
      (if as_str (jsonGet (match jsonGet data "input" with
          | some (.jdict entries) => entries
          | _ => []) "mode") "off" ∉ ["off", "digital", "analog"] then "off"
       else as_str (jsonGet (match jsonGet data "input" with
          | some (.jdict entries) => entries
          | _ => []) "mode") "off") := by
    simp only [state_options_from_headless_data]; rw [normalize_input_mode]
  have hb : (state_options_from_headless_data data).1.brightness =
      clamp_brightness (as_int (jsonGet data "brightness") 255) := by
    simp only [state_options_from_headless_data]; rw [normalize_brightness]
  have hmb : (state_options_from_headless_data data).1.max_brightness =
      clamp_brightness (as_int (jsonGet data "max_brightness") 255) := by
    simp only [state_options_from_headless_data]; rw [normalize_max_brightness]
  have ham : (state_options_from_headless_data data).1.analog_max =
      max 1 (as_int (jsonGet (match jsonGet data "input" with
          | some (.jdict entries) => entries
          | _ => []) "analog_max") 4095) := by
    simp only [state_options_from_headless_data]; rw [normalize_analog_max]
  have hem : (state_options_from_headless_data data).1.emergency_only =
      as_bool (jsonGet data "emergency_only") false := by
    simp only [state_options_from_headless_data]; rw [normalize_emergency_only]
  refine ⟨?_, ?_, ?_, ?_, ?_, ?_, ?_, ?_, ?_, ?_, ?_, ?_, ?_, ?_, ?_, ?_⟩
  · rw [hem]
    by_cases he : as_bool (jsonGet data "emergency_only") false = true
    · rw [he]
      have h4 : (state_options_from_headless_data data).1.pattern = "4" := by
        simp only [state_options_from_headless_data, normalize_pattern_for_mode]
        rw [if_pos (by exact he)]
      rw [h4]; decide
    · have he' : as_bool (jsonGet data "emergency_only") false = false := by
        revert he; cases as_bool (jsonGet data "emergency_only") false <;> simp
      rw [he']
      have hpat : (state_options_from_headless_data data).1.pattern =
          (if (if as_str (jsonGet data "pattern") "1" ∉ PATTERN_KEYS then "1"
               else as_str (jsonGet data "pattern") "1") = "4" then "1"
           else (if as_str (jsonGet data "pattern") "1" ∉ PATTERN_KEYS then "1"
               else as_str (jsonGet data "pattern") "1")) := by
        simp only [state_options_from_headless_data, normalize_pattern_for_mode]
        rw [if_neg (by simp [he']), apply_ite AppState.pattern]
      rw [hpat]
      by_cases hin : as_str (jsonGet data "pattern") "1" ∉ PATTERN_KEYS
      · simp only [if_pos hin]
        decide
      · have hin' : as_str (jsonGet data "pattern") "1" ∈ PATTERN_KEYS := not_not.mp hin
        simp only [if_neg hin]
        by_cases h4 : as_str (jsonGet data "pattern") "1" = "4"
        · rw [if_pos h4]; decide
        · rw [if_neg h4]
          have hcases : as_str (jsonGet data "pattern") "1" = "1" ∨
              as_str (jsonGet data "pattern") "1" = "2" ∨
              as_str (jsonGet data "pattern") "1" = "3" ∨
              as_str (jsonGet data "pattern") "1" = "4" := by
            simpa [PATTERN_KEYS] using hin'
          rcases hcases with h | h | h | h
          · rw [h]; decide
          · rw [h]; decide
          · rw [h]; decide
          · exact absurd h h4
  · rw [hspeed]; split_ifs with h
    · exact h
    · decide
  · rw [hchase]; split_ifs with h
    · exact h
    · decide
  · rw [hpal]; split_ifs with h
    · exact h
    · decide
  · rw [hbounce]; split_ifs with h
    · exact h
    · decide
  · rw [hmode]; split_ifs with h
    · exact h
    · decide
  · rw [hb]; simp only [clamp_brightness]; omega
  · rw [hb]; simp only [clamp_brightness]; omega
  · rw [hmb]; simp only [clamp_brightness]; omega
  · rw [hmb]; simp only [clamp_brightness]; omega
  · rw [ham]; exact le_max_left 1 _
  · have : (state_options_from_headless_data data).2.1.frames =
        max 0 (as_int (jsonGet (match jsonGet data "run" with
          | some (.jdict entries) => entries
          | _ => []) "frames") 0) := by
      simp only [state_options_from_headless_data]
    rw [this]; exact le_max_left 0 _
  · have : (state_options_from_headless_data data).2.1.duration_seconds =
        max 0 (as_float (jsonGet (match jsonGet data "run" with
          | some (.jdict entries) => entries
          | _ => []) "duration_seconds") 0) := by
      simp only [state_options_from_headless_data]
    rw [this]; exact le_max_left 0 _
  · have : (state_options_from_headless_data data).2.1.start_delay_seconds =
        max 0 (as_float (jsonGet (match jsonGet data "run" with
          | some (.jdict entries) => entries
          | _ => []) "start_delay_seconds") 0) := by
      simp only [state_options_from_headless_data]
    rw [this]; exact le_max_left 0 _
  · intro he
    simp only [state_options_from_headless_data, normalize_pattern_for_mode]
    rw [if_pos (by exact he)]
  · intro he hpat
    simp only [state_options_from_headless_data, normalize_pattern_for_mode]
    rw [if_neg (by simp [he]), apply_ite AppState.pattern]
    simp only [if_pos hpat]
    decide

/-- C8 — witness: the theorem applied at a record carrying an invalid pattern
value, which falls back to Chase. -/
theorem headless_defaults_witness :
    (state_options_from_headless_data [("pattern", .jstr "9")]).1.pattern = "1" := by
  have h := headless_defaults_spec [("pattern", .jstr "9")]
  exact h.2.2.2.2.2.2.2.2.2.2.2.2.2.2.2 (by decide) (by decide)

/-- `handle_key` either nudges brightness by ±16 through `clamp_brightness`
or leaves it alone. -/
lemma handle_key_brightness_cases (s : AppState) (k : String) :
    (handle_key s k).1.brightness = clamp_brightness (s.brightness + 16) ∨
      (handle_key s k).1.brightness = clamp_brightness (s.brightness - 16) ∨
      (handle_key s k).1.brightness = s.brightness := by
  simp only [handle_key]
  split_ifs <;>
    first
      | exact Or.inl rfl
      | exact Or.inr (Or.inl rfl)
      | exact Or.inr (Or.inr rfl)

/-- `handle_key` never touches `max_brightness`. -/
lemma handle_key_max_brightness (s : AppState) (k : String) :
    (handle_key s k).1.max_brightness = s.max_brightness := by
  simp only [handle_key]
  split_ifs <;> rfl

/-- C1 — counterexample. The claim requires `brightness ≤ max_brightness`
after every mutation; a `'+'` keystroke only clamps to [0, 255]: from
`max_brightness = 100`, `brightness = 100` (a state satisfying the claimed
invariant), `'+'` yields `brightness = 116 > 100 = max_brightness`. -/
theorem brightness_invariant_counterexample :
    ¬ ((handle_key { baseState with max_brightness := 100, brightness := 100 }
          "+").1.brightness ≤
        (handle_key { baseState with max_brightness := 100, brightness := 100 }
          "+").1.max_brightness) := by
  decide

/-- C1 — amended: every mutation path keeps `0 ≤ brightness ≤ 255` and
`0 ≤ max_brightness ≤ 255`, but only some enforce
`brightness ≤ max_brightness`: the sensor response preserves it and the CLI
construction and CLI override re-establish it (`min` with `max_brightness`),
while a `'+'`/`'-'` keystroke and the headless-settings loader clamp
brightness only to [0, 255] and can leave it above `max_brightness`. -/
theorem brightness_invariant_amended (s : AppState)
    (hb : 0 ≤ s.brightness ∧ s.brightness ≤ 255)
    (hmb : 0 ≤ s.max_brightness ∧ s.max_brightness ≤ 255) :
    (∀ k : String,
        0 ≤ (handle_key s k).1.brightness ∧ (handle_key s k).1.brightness ≤ 255 ∧
          (handle_key s k).1.max_brightness = s.max_brightness) ∧
      (∀ (sb : Int) (d a : Option Int), s.brightness ≤ s.max_brightness →
        0 ≤ (apply_pi_input_response s sb d a).1.brightness ∧
          (apply_pi_input_response s sb d a).1.brightness ≤ s.max_brightness ∧
          (apply_pi_input_response s sb d a).1.max_brightness = s.max_brightness) ∧
      (∀ data : List (String × JValue),
        0 ≤ (state_options_from_headless_data data).1.brightness ∧
          (state_options_from_headless_data data).1.brightness ≤ 255 ∧
          0 ≤ (state_options_from_headless_data data).1.max_brightness ∧
          (state_options_from_headless_data data).1.max_brightness ≤ 255) ∧
      (∀ args : Args,
        0 ≤ (state_from_args args).1.brightness ∧
          (state_from_args args).1.brightness ≤ (state_from_args args).1.max_brightness ∧
          (state_from_args args).1.max_brightness ≤ 255) ∧
      (∀ (args : Args) (o : RunOptions),
        0 ≤ (apply_cli_overrides s o args).1.brightness ∧
          (apply_cli_overrides s o args).1.brightness ≤
            (apply_cli_overrides s o args).1.max_brightness ∧
          (apply_cli_overrides s o args).1.max_brightness ≤ 255) := by
  refine ⟨?_, ?_, ?_, ?_, ?_⟩
  · intro k
    refine ⟨?_, ?_, handle_key_max_brightness s k⟩ <;>
      rcases handle_key_brightness_cases s k with h | h | h <;>
      rw [h] <;> (try simp only [clamp_brightness]) <;> omega
  · intro sb d a hle
    simp only [apply_pi_input_response]
    split_ifs with h1 h2
    · exact ⟨hb.1, hle, rfl⟩
    · cases d with
      | none => exact ⟨hb.1, hle, rfl⟩
      | some v =>
        dsimp only
        split_ifs with hv
        · exact ⟨hmb.1, le_refl _, rfl⟩
        · exact ⟨le_refl 0, hmb.1, rfl⟩
    · cases a with
      | none => exact ⟨hb.1, hle, rfl⟩
      | some v =>
        have ham' : (0 : ℤ) < max 1 s.analog_max := lt_of_lt_of_le one_pos (le_max_left 1 _)
        have hbounds := float_scaled_bounds (max 1 s.analog_max) s.max_brightness
          (max 0 (min (max 1 s.analog_max) v)) ham' (le_max_left 0 _) (by omega)
          hmb.1 hmb.2
        dsimp only
        refine ⟨?_, ?_, rfl⟩ <;> simp only [clamp_brightness] <;> omega
  · intro data
    have h1 : (state_options_from_headless_data data).1.brightness =
        clamp_brightness (as_int (jsonGet data "brightness") 255) := by
      simp only [state_options_from_headless_data]; rw [normalize_brightness]
    have h2 : (state_options_from_headless_data data).1.max_brightness =
        clamp_brightness (as_int (jsonGet data "max_brightness") 255) := by
      simp only [state_options_from_headless_data]; rw [normalize_max_brightness]
    rw [h1, h2]
    simp only [clamp_brightness]
    omega
  · intro args
    have h1 : (state_from_args args).1.brightness =
        min (clamp_brightness (args.brightness.getD 255))
          (clamp_brightness (args.max_brightness.getD 255)) := by
      simp only [state_from_args]; rw [normalize_brightness]
    have h2 : (state_from_args args).1.max_brightness =
        clamp_brightness (args.max_brightness.getD 255) := by
      simp only [state_from_args]; rw [normalize_max_brightness]
    rw [h1, h2]
    simp only [clamp_brightness]
    omega
  · intro args o
    have h1 : (apply_cli_overrides s o args).1.brightness =
        min (match args.brightness with
             | some v => clamp_brightness v
             | none => s.brightness)
          (match args.max_brightness with
           | some v => clamp_brightness v
           | none => s.max_brightness) := by
      simp only [apply_cli_overrides]; rw [normalize_brightness]
    have h2 : (apply_cli_overrides s o args).1.max_brightness =
        (match args.max_brightness with
         | some v => clamp_brightness v
         | none => s.max_brightness) := by
      simp only [apply_cli_overrides]; rw [normalize_max_brightness]
    rw [h1, h2]
    cases args.brightness <;> cases args.max_brightness <;>
      dsimp only <;> (try simp only [clamp_brightness]) <;> omega

/-- C1 — witness: the amended theorem applied at the default state and the
`'+'` keystroke. -/
theorem brightness_invariant_witness :
    0 ≤ (handle_key baseState "+").1.brightness ∧
      (handle_key baseState "+").1.brightness ≤ 255 := by
  have h := brightness_invariant_amended baseState
    ⟨by norm_num [baseState], by norm_num [baseState]⟩
    ⟨by norm_num [baseState], by norm_num [baseState]⟩
  exact ⟨(h.1 "+").1, (h.1 "+").2.1⟩

end LightsPI
